import Mathlib

/-!
Shallow embedding of the ECIES session-stream layer
(crates/net/ecies/src/stream.rs) of this repository.

The layer under verification is the file stream.rs: the two handshake
constructors (ECIESStream::connect and ECIESStream::incoming), the
post-handshake Stream implementation (poll_next) and the Sink
implementation (poll_ready / start_send / poll_flush / poll_close).

External collaborators (the cryptographic codec ECIESCodec and the
tokio-util Framed adapter over the raw transport) are out of scope of the
repository slice and are modelled from the spec: the adapter is "a lazy
producer of ingress values and an acceptor of egress values with explicit
ready/flush/close signaling".  Its ingress side is a list of pending
decode results (the empty list is a stream that has ended) and its egress
side records the accepted values and draws each operation's outcome from
an explicit outcome list (an exhausted outcome list means the operation
succeeds), so the model quantifies over every behaviour of the external
adapter, including decode errors and rejected writes.
-/

/-- PeerId: H512 public identifier of a node, immutable and compared by
value.  Modelled as a natural number; the Rust Default (the zero id) is 0. -/
abbrev PeerId := Nat

/-- Opaque application payload bytes (bytes::Bytes). -/
abbrev Bytes := List Nat

/-- Modelled from the spec: io::Error, an I/O error with a kind and a
message (the code only builds kind Other). -/
structure IOError where
  kind : String
  msg : String
deriving DecidableEq, Repr

/-- Modelled from the spec: the ingress protocol values produced by the
codec: Ack, AuthReceive(peer-id), Message(bytes). -/
inductive IngressECIESValue where
  | Ack : IngressECIESValue
  | AuthReceive : PeerId → IngressECIESValue
  | Message : Bytes → IngressECIESValue
deriving DecidableEq, Repr

/-- Modelled from the spec: the egress protocol values consumed by the
codec: Auth, Ack, Message(bytes). -/
inductive EgressECIESValue where
  | Auth : EgressECIESValue
  | Ack : EgressECIESValue
  | Message : Bytes → EgressECIESValue
deriving DecidableEq, Repr

/-- Modelled from the spec: ECIESError, the error type of the ecies crate
(its error module is outside the provided slice).  The slice uses the
InvalidHandshake variant (expected shape plus observed value or its
absence), errors converted from io::Error, and otherwise opaque
codec-construction / decode errors, modelled by an opaque code. -/
inductive ECIESError where
  | ioError : IOError → ECIESError
  | invalidHandshake : IngressECIESValue → Option IngressECIESValue → ECIESError
  | codecFault : Nat → ECIESError
deriving DecidableEq, Repr

instance exceptDecEq {ε α : Type} [DecidableEq ε] [DecidableEq α] :
    DecidableEq (Except ε α)
  | Except.ok a, Except.ok b =>
    if h : a = b then isTrue (by rw [h])
    else isFalse (by intro hc; cases hc; exact h rfl)
  | Except.ok _, Except.error _ => isFalse (by intro h; exact Except.noConfusion h)
  | Except.error _, Except.ok _ => isFalse (by intro h; exact Except.noConfusion h)
  | Except.error e, Except.error e' =>
    if h : e = e' then isTrue (by rw [h])
    else isFalse (by intro hc; cases hc; exact h rfl)

/-- Modelled from the spec: the Framed duplex adapter (tokio-util Framed
over transport + codec), "a lazy producer of ingress values and an
acceptor of egress values with explicit ready/flush/close signaling".
ingress holds the pending decode results in order ([] = the stream has
ended); sent records, in order, every egress value the adapter accepted;
the three outcome lists drive the fallible write-path operations, one
outcome consumed per call, success when exhausted. -/
structure Framed where
  ingress : List (Except ECIESError IngressECIESValue)
  sent : List EgressECIESValue
  readyOutcomes : List (Option ECIESError)
  sendOutcomes : List (Option ECIESError)
  flushOutcomes : List (Option ECIESError)
  closeOutcomes : List (Option ECIESError)
deriving DecidableEq, Repr

namespace Framed

/-- Modelled from the spec: one ready poll of the adapter stream (the
producer side).  Yields the next pending decode result, or none when the
stream has ended. -/
def poll_next (f : Framed) : Option (Except ECIESError IngressECIESValue) × Framed :=
  match f.ingress with
  | [] => (none, f)
  | item :: rest => (some item, { f with ingress := rest })

/-- Modelled from the spec: TryStreamExt::try_next over the adapter:
Ok(Some v) for a decoded value, Ok(None) at stream end, Err(e) when the
next item is a decode/transport error. -/
def try_next (f : Framed) : Except ECIESError (Option IngressECIESValue) × Framed :=
  match f.ingress with
  | [] => (Except.ok none, f)
  | Except.error e :: rest => (Except.error e, { f with ingress := rest })
  | Except.ok v :: rest => (Except.ok (some v), { f with ingress := rest })

/-- Modelled from the spec: the adapter's readiness poll (backpressure). -/
def poll_ready (f : Framed) : Option ECIESError × Framed :=
  match f.readyOutcomes with
  | [] => (none, f)
  | o :: rest => (o, { f with readyOutcomes := rest })

/-- Modelled from the spec: the adapter accepting one egress value.  On
success the value is recorded on the wire order; a rejected value is not
recorded. -/
def start_send (f : Framed) (v : EgressECIESValue) : Option ECIESError × Framed :=
  match f.sendOutcomes with
  | [] => (none, { f with sent := f.sent ++ [v] })
  | none :: rest => (none, { f with sendOutcomes := rest, sent := f.sent ++ [v] })
  | some e :: rest => (some e, { f with sendOutcomes := rest })

/-- Modelled from the spec: the adapter's flush poll. -/
def poll_flush (f : Framed) : Option ECIESError × Framed :=
  match f.flushOutcomes with
  | [] => (none, f)
  | o :: rest => (o, { f with flushOutcomes := rest })

/-- Modelled from the spec: the adapter's close poll. -/
def poll_close (f : Framed) : Option ECIESError × Framed :=
  match f.closeOutcomes with
  | [] => (none, f)
  | o :: rest => (o, { f with closeOutcomes := rest })

/-- Modelled from the spec: SinkExt::send on the adapter, as used by the
handshake: wait for readiness, hand over the value, flush. -/
def send (f : Framed) (v : EgressECIESValue) : Option ECIESError × Framed :=
  let (r1, f1) := f.poll_ready
  match r1 with
  | some e => (some e, f1)
  | none =>
    let (r2, f2) := f1.start_send v
    match r2 with
    | some e => (some e, f2)
    | none => f2.poll_flush

end Framed

/-- The ECIES stream over a transport (stream.rs lines 26-29): the framed
adapter plus the negotiated remote id. -/
structure ECIESStream where
  stream : Framed
  remote_id : PeerId
deriving DecidableEq, Repr

namespace ECIESStream

/-- ECIESStream::connect (stream.rs lines 49-71).  The codec construction
ECIESCodec::new_client(secret_key, remote_id) is external crypto; its
outcome is the first argument.  Returns the connect result together with
the final adapter state (on success that state is the session's stream). -/
def connect (new_client : Except ECIESError Unit) (transport : Framed)
    (remote_id : PeerId) : Except ECIESError ECIESStream × Framed :=
  match new_client with
  | Except.error _ =>
    (Except.error (ECIESError.ioError ⟨"Other", "invalid handshake"⟩), transport)
  | Except.ok _ =>
    match transport.send EgressECIESValue.Auth with
    | (some e, t1) => (Except.error e, t1)
    | (none, t1) =>
      match t1.try_next with
      | (Except.error e, t2) => (Except.error e, t2)
      | (Except.ok msg, t2) =>
        if msg = some IngressECIESValue.Ack then
          (Except.ok ⟨t2, remote_id⟩, t2)
        else
          (Except.error (ECIESError.invalidHandshake IngressECIESValue.Ack msg), t2)

/-- ECIESStream::incoming (stream.rs lines 75-97).  The codec construction
ECIESCodec::new_server(secret_key) is external crypto; its outcome is the
first argument.  Returns the incoming result together with the final
adapter state. -/
def incoming (new_server : Except ECIESError Unit) (transport : Framed) :
    Except ECIESError ECIESStream × Framed :=
  match new_server with
  | Except.error e => (Except.error e, transport)
  | Except.ok _ =>
    match transport.try_next with
    | (Except.error e, t1) => (Except.error e, t1)
    | (Except.ok msg, t1) =>
      match msg with
      | some (IngressECIESValue.AuthReceive rid) =>
        match t1.send EgressECIESValue.Ack with
        | (some e, t2) => (Except.error e, t2)
        | (none, t2) => (Except.ok ⟨t2, rid⟩, t2)
      | _ =>
        (Except.error
          (ECIESError.invalidHandshake (IngressECIESValue.AuthReceive 0) msg), t1)

end ECIESStream

/-- Modelled from the spec: Rust Debug formatting of a payload. -/
def bytesDebugFmt (b : Bytes) : String :=
  "[" ++ String.intercalate ", " (b.map toString) ++ "]"

/-- Modelled from the spec: Rust Debug formatting of an ingress value. -/
def IngressECIESValue.debugFmt : IngressECIESValue → String
  | IngressECIESValue.Ack => "Ack"
  | IngressECIESValue.AuthReceive rid => "AuthReceive(" ++ toString rid ++ ")"
  | IngressECIESValue.Message b => "Message(" ++ bytesDebugFmt b ++ ")"

/-- Modelled from the spec: Rust Debug formatting of an option of an
ingress value. -/
def optionDebugFmt : Option IngressECIESValue → String
  | none => "None"
  | some v => "Some(" ++ v.debugFmt ++ ")"

/-- Modelled from the spec: Rust Debug formatting of the error type. -/
def ECIESError.debugFmt : ECIESError → String
  | ECIESError.ioError e => "Custom(" ++ e.kind ++ ", " ++ e.msg ++ ")"
  | ECIESError.invalidHandshake expected msg =>
    "InvalidHandshake(" ++ expected.debugFmt ++ ", " ++ optionDebugFmt msg ++ ")"
  | ECIESError.codecFault n => "CodecError(" ++ toString n ++ ")"

/-- Modelled from the spec: Rust Debug formatting of a decode result, as
interpolated by the protocol-error message of poll_next. -/
def resultDebugFmt : Except ECIESError IngressECIESValue → String
  | Except.ok v => "Ok(" ++ v.debugFmt ++ ")"
  | Except.error e => "Err(" ++ e.debugFmt ++ ")"

/-- The io::Error built by poll_next (stream.rs lines 114-117) for every
ready item of the inner stream other than Ok(Message(..)): kind Other and
a message interpolating the Debug rendering of the offending item. -/
def protocolError (other : Except ECIESError IngressECIESValue) : ECIESError :=
  ECIESError.ioError
    ⟨"Other",
      "ECIES stream protocol error: expected message, received " ++ resultDebugFmt other⟩

namespace ECIESStream

/-- The Stream implementation of ECIESStream (stream.rs lines 111-120):
poll the inner framed stream; Ok(Message body) yields the payload, any
other ready item yields the protocol io::Error naming it, stream end is
passed through. -/
def poll_next (s : ECIESStream) : Option (Except ECIESError Bytes) × ECIESStream :=
  (match (s.stream.poll_next).1 with
   | some (Except.ok (IngressECIESValue.Message body)) => some (Except.ok body)
   | some other => some (Except.error (protocolError other))
   | none => none,
   ⟨(s.stream.poll_next).2, s.remote_id⟩)

/-- Sink::poll_ready of ECIESStream (stream.rs lines 129-131): direct
delegation to the adapter. -/
def poll_ready (s : ECIESStream) : Option ECIESError × ECIESStream :=
  ((s.stream.poll_ready).1, ⟨(s.stream.poll_ready).2, s.remote_id⟩)

/-- Sink::start_send of ECIESStream (stream.rs lines 133-138): wrap the
item as a Message egress value and delegate to the adapter. -/
def start_send (s : ECIESStream) (item : Bytes) : Option ECIESError × ECIESStream :=
  ((s.stream.start_send (EgressECIESValue.Message item)).1,
   ⟨(s.stream.start_send (EgressECIESValue.Message item)).2, s.remote_id⟩)

/-- Sink::poll_flush of ECIESStream (stream.rs lines 140-142): direct
delegation to the adapter. -/
def poll_flush (s : ECIESStream) : Option ECIESError × ECIESStream :=
  ((s.stream.poll_flush).1, ⟨(s.stream.poll_flush).2, s.remote_id⟩)

/-- Sink::poll_close of ECIESStream (stream.rs lines 144-146): direct
delegation to the adapter. -/
def poll_close (s : ECIESStream) : Option ECIESError × ECIESStream :=
  ((s.stream.poll_close).1, ⟨(s.stream.poll_close).2, s.remote_id⟩)

end ECIESStream

/-- One sink operation on an established session, item payloads included. -/
inductive SinkOp where
  | ready : SinkOp
  | sendItem : Bytes → SinkOp
  | flush : SinkOp
  | close : SinkOp
deriving DecidableEq, Repr

/-- One sink operation at the adapter level, over egress values. -/
inductive FramedSinkOp where
  | ready : FramedSinkOp
  | sendItem : EgressECIESValue → FramedSinkOp
  | flush : FramedSinkOp
  | close : FramedSinkOp
deriving DecidableEq, Repr

/-- The adapter operation a session sink operation delegates to: the
item-accepting operation wraps its payload as a Message egress value,
ready/flush/close map to themselves. -/
def SinkOp.wrap : SinkOp → FramedSinkOp
  | SinkOp.ready => FramedSinkOp.ready
  | SinkOp.sendItem b => FramedSinkOp.sendItem (EgressECIESValue.Message b)
  | SinkOp.flush => FramedSinkOp.flush
  | SinkOp.close => FramedSinkOp.close

/-- One sink operation on an established session: the four entry points of
the Sink implementation, dispatched. -/
def ECIESStream.sinkStep (s : ECIESStream) : SinkOp → Option ECIESError × ECIESStream
  | SinkOp.ready => s.poll_ready
  | SinkOp.sendItem b => s.start_send b
  | SinkOp.flush => s.poll_flush
  | SinkOp.close => s.poll_close

/-- One sink operation directly on the adapter. -/
def Framed.sinkStep (f : Framed) : FramedSinkOp → Option ECIESError × Framed
  | FramedSinkOp.ready => f.poll_ready
  | FramedSinkOp.sendItem v => f.start_send v
  | FramedSinkOp.flush => f.poll_flush
  | FramedSinkOp.close => f.poll_close

/-- Run a sequence of sink operations on an established session, collecting
each operation's result in order. -/
def ECIESStream.runSink : ECIESStream → List SinkOp → List (Option ECIESError) × ECIESStream
  | s, [] => ([], s)
  | s, op :: ops =>
    ((s.sinkStep op).1 :: (((s.sinkStep op).2).runSink ops).1,
     (((s.sinkStep op).2).runSink ops).2)

/-- Run a sequence of sink operations directly on the adapter, collecting
each operation's result in order. -/
def Framed.runSink : Framed → List FramedSinkOp → List (Option ECIESError) × Framed
  | f, [] => ([], f)
  | f, op :: ops =>
    ((f.sinkStep op).1 :: (((f.sinkStep op).2).runSink ops).1,
     (((f.sinkStep op).2).runSink ops).2)

/-- One operation driving an established session, either direction. -/
inductive SessionOp where
  | next : SessionOp
  | ready : SessionOp
  | sendItem : Bytes → SessionOp
  | flush : SessionOp
  | close : SessionOp
deriving DecidableEq, Repr

/-- The state reached by one stream or sink operation on a session. -/
def ECIESStream.stepOp (s : ECIESStream) : SessionOp → ECIESStream
  | SessionOp.next => (s.poll_next).2
  | SessionOp.ready => (s.poll_ready).2
  | SessionOp.sendItem b => (s.start_send b).2
  | SessionOp.flush => (s.poll_flush).2
  | SessionOp.close => (s.poll_close).2

/-- The state reached by a sequence of stream and sink operations. -/
def ECIESStream.runOps (s : ECIESStream) : List SessionOp → ECIESStream
  | [] => s
  | op :: ops => (s.stepOp op).runOps ops

/-- Modelled from the spec: the wire contract of the excluded codec — each
egress frame sent by one peer is observed by the other as the matching
ingress value, byte-exact for Message payloads; Auth is observed as
AuthReceive carrying the sender's id. -/
def wireTransfer (senderId : PeerId) : EgressECIESValue → IngressECIESValue
  | EgressECIESValue.Auth => IngressECIESValue.AuthReceive senderId
  | EgressECIESValue.Ack => IngressECIESValue.Ack
  | EgressECIESValue.Message b => IngressECIESValue.Message b

/-- The classification poll_next applies to one ready decode result of the
inner stream: the payload for Ok(Message(..)), the protocol io::Error for
anything else. -/
def classifyIngress : Except ECIESError IngressECIESValue → Except ECIESError Bytes
  | Except.ok (IngressECIESValue.Message body) => Except.ok body
  | other => Except.error (protocolError other)

theorem poll_next_spec (s : ECIESStream) :
    s.poll_next =
      match s.stream.ingress with
      | [] => (none, s)
      | item :: rest =>
        (some (classifyIngress item), ⟨{ s.stream with ingress := rest }, s.remote_id⟩) := by
  rcases s with ⟨⟨ing, snt, ro, so, fo, co⟩, rid⟩
  cases ing with
  | nil => rfl
  | cons item rest =>
    cases item with
    | error e => rfl
    | ok v => cases v <;> rfl

/-- Iterate poll_next at most the given number of times, stopping early at
clean end-of-sequence and collecting the yielded items in order. -/
def drainFuel : Nat → ECIESStream → List (Except ECIESError Bytes)
  | 0, _ => []
  | Nat.succ n, s =>
    match s.poll_next with
    | (none, _) => []
    | (some r, s') => r :: drainFuel n s'

/-- Repeatedly poll the established stream until it reports clean
end-of-sequence, collecting the yielded items in order (one ingress item
is consumed per poll, so the pending-item count bounds the iteration). -/
def ECIESStream.drain (s : ECIESStream) : List (Except ECIESError Bytes) :=
  drainFuel s.stream.ingress.length s

/-- Push a list of payloads through the session sink in order via
start_send, returning the final state. -/
def ECIESStream.sendAll : ECIESStream → List Bytes → ECIESStream
  | s, [] => s
  | s, b :: bs => ((s.start_send b).2).sendAll bs

/-- An adapter whose write path accepts every value it is offered: all
readiness, acceptance and flush outcomes are successes. -/
def Framed.acceptsWrites (f : Framed) : Prop :=
  f.readyOutcomes = [] ∧ f.sendOutcomes = [] ∧ f.flushOutcomes = []

theorem Framed.send_of_acceptsWrites (f : Framed) (v : EgressECIESValue)
    (h : f.acceptsWrites) :
    f.send v = (none, { f with sent := f.sent ++ [v] }) := by
  obtain ⟨h1, h2, h3⟩ := h
  rcases f with ⟨ing, snt, ro, so, fo, co⟩
  simp only at h1 h2 h3
  subst h1; subst h2; subst h3
  rfl

theorem Framed.try_next_state (f : Framed) :
    (f.try_next).2 = { f with ingress := f.ingress.tail } := by
  rcases f with ⟨ing, snt, ro, so, fo, co⟩
  cases ing with
  | nil => rfl
  | cons item rest => cases item <;> rfl

/-- Discriminator for the InvalidHandshake error shape. -/
def ECIESError.isInvalidHandshake : ECIESError → Bool
  | ECIESError.invalidHandshake _ _ => true
  | _ => false

/-- Claim C10: the two constructors report codec-construction failure
differently — connect maps any client-codec construction failure to the
generic io::Error of kind Other with fixed message "invalid handshake",
discarding the underlying cause (the result does not depend on the cause
e), while incoming returns the server-codec construction error unchanged. -/
theorem c10_codec_failure_reporting (e : ECIESError) (transport : Framed)
    (rid : PeerId) :
    (ECIESStream.connect (Except.error e) transport rid).1
        = Except.error (ECIESError.ioError ⟨"Other", "invalid handshake"⟩)
    ∧ (ECIESStream.incoming (Except.error e) transport).1 = Except.error e :=
  ⟨rfl, rfl⟩

/-- Claim C1 counterexample: when the value awaited after sending Auth is a
decode error (here an opaque codec error with code 7), connect returns that
error itself via error propagation, not a handshake error of the form
"expected Ack, got X": the returned error is not an InvalidHandshake. -/
theorem c1_counterexample :
    (ECIESStream.connect (Except.ok ())
        ⟨[Except.error (ECIESError.codecFault 7)], [], [], [], [], []⟩ 5).1
      = Except.error (ECIESError.codecFault 7)
    ∧ (ECIESError.codecFault 7).isInvalidHandshake = false :=
  ⟨rfl, rfl⟩

/-- Claim C1 (amended): for every transport whose write path accepts the
Auth, once the client codec is constructed, connect's outcome is decided by
the single awaited ingress item: an Ack yields a session carrying the
caller-supplied remote_id; any other decoded value or stream end yields the
handshake error expected-Ack-got-X carrying the observed value or its
absence and never a session; a decode/transport error on the await is
returned as that error itself (not wrapped as expected-Ack-got-X). -/
theorem c1_connect_ack_classification (transport : Framed) (rid : PeerId)
    (hW : transport.acceptsWrites) :
    (∀ rest, transport.ingress = Except.ok IngressECIESValue.Ack :: rest →
       ECIESStream.connect (Except.ok ()) transport rid
         = (Except.ok ⟨{ transport with ingress := rest, sent := transport.sent ++ [EgressECIESValue.Auth] }, rid⟩,
            { transport with ingress := rest, sent := transport.sent ++ [EgressECIESValue.Auth] }))
    ∧ (∀ v rest, transport.ingress = Except.ok v :: rest →
         v ≠ IngressECIESValue.Ack →
         (ECIESStream.connect (Except.ok ()) transport rid).1
           = Except.error
               (ECIESError.invalidHandshake IngressECIESValue.Ack (some v)))
    ∧ (transport.ingress = [] →
         (ECIESStream.connect (Except.ok ()) transport rid).1
           = Except.error (ECIESError.invalidHandshake IngressECIESValue.Ack none))
    ∧ (∀ e rest, transport.ingress = Except.error e :: rest →
         (ECIESStream.connect (Except.ok ()) transport rid).1 = Except.error e) := by
  have hsend := Framed.send_of_acceptsWrites transport EgressECIESValue.Auth hW
  refine ⟨?_, ?_, ?_, ?_⟩
  · intro rest hi
    simp [ECIESStream.connect, hsend, Framed.try_next, hi]
  · intro v rest hi hv
    simp [ECIESStream.connect, hsend, Framed.try_next, hi, hv]
  · intro hi
    simp [ECIESStream.connect, hsend, Framed.try_next, hi]
  · intro e rest hi
    simp [ECIESStream.connect, hsend, Framed.try_next, hi]

/-- Witness for C1 (amended): a concrete transport answering Ack makes
connect succeed with the caller-supplied remote id 5 and exactly the Auth
on the wire. -/
theorem c1_connect_ack_classification_witness :
    ECIESStream.connect (Except.ok ())
        ⟨[Except.ok IngressECIESValue.Ack], [], [], [], [], []⟩ 5
      = (Except.ok ⟨⟨[], [EgressECIESValue.Auth], [], [], [], []⟩, 5⟩,
         ⟨[], [EgressECIESValue.Auth], [], [], [], []⟩) :=
  (c1_connect_ack_classification
      ⟨[Except.ok IngressECIESValue.Ack], [], [], [], [], []⟩ 5
      ⟨rfl, rfl, rfl⟩).1 [] rfl

/-- Claim C2 counterexample: two concrete transports refute the claim as
stated.  First, when the single awaited ingress value is a decode failure
(opaque codec error 3), incoming returns that error itself via error
propagation, not an error of the form "expected AuthReceive, got X".
Second, a transport that delivers AuthReceive(7) but whose write path
rejects the Ack (outcome codec error 4) makes incoming return the send
error and no session, refuting the claimed equivalence that an
AuthReceive(peer_id) value always produces a session. -/
theorem c2_counterexample :
    ((ECIESStream.incoming (Except.ok ())
         ⟨[Except.error (ECIESError.codecFault 3)], [], [], [], [], []⟩).1
       = Except.error (ECIESError.codecFault 3)
      ∧ (ECIESError.codecFault 3).isInvalidHandshake = false)
    ∧ (ECIESStream.incoming (Except.ok ())
         ⟨[Except.ok (IngressECIESValue.AuthReceive 7)], [],
           [], [some (ECIESError.codecFault 4)], [], []⟩).1
        = Except.error (ECIESError.codecFault 4) :=
  ⟨⟨rfl, rfl⟩, rfl⟩

/-- Claim C2 (amended): for every transport whose write path accepts
writes, once the server codec is constructed, incoming awaits exactly one
ingress value before writing anything (every failure branch leaves the
egress record unchanged and one ingress item consumed); if that value is
AuthReceive(peer_id) it sends exactly one Ack and returns a session whose
remote_id equals the received peer_id; an unexpected decoded value or
stream end yields the handshake error expected-AuthReceive-got-X whose
expected shape carries the zero placeholder identity, and no session; a
decode/transport error on the await is returned as that error itself (not
wrapped as expected-AuthReceive-got-X), and no session. -/
theorem c2_incoming_auth_classification (transport : Framed)
    (hW : transport.acceptsWrites) :
    (∀ rid rest,
       transport.ingress = Except.ok (IngressECIESValue.AuthReceive rid) :: rest →
       ECIESStream.incoming (Except.ok ()) transport
         = (Except.ok ⟨{ transport with ingress := rest, sent := transport.sent ++ [EgressECIESValue.Ack] }, rid⟩,
            { transport with ingress := rest, sent := transport.sent ++ [EgressECIESValue.Ack] }))
    ∧ (∀ v rest, transport.ingress = Except.ok v :: rest →
         (∀ rid, v ≠ IngressECIESValue.AuthReceive rid) →
         ECIESStream.incoming (Except.ok ()) transport
           = (Except.error (ECIESError.invalidHandshake
                (IngressECIESValue.AuthReceive 0) (some v)),
              { transport with ingress := rest }))
    ∧ (transport.ingress = [] →
         ECIESStream.incoming (Except.ok ()) transport
           = (Except.error (ECIESError.invalidHandshake
                (IngressECIESValue.AuthReceive 0) none), transport))
    ∧ (∀ e rest, transport.ingress = Except.error e :: rest →
         ECIESStream.incoming (Except.ok ()) transport
           = (Except.error e, { transport with ingress := rest })) := by
  refine ⟨?_, ?_, ?_, ?_⟩
  · intro rid rest hi
    have hsend := Framed.send_of_acceptsWrites
      { transport with ingress := rest } EgressECIESValue.Ack
      ⟨hW.1, hW.2.1, hW.2.2⟩
    simp [ECIESStream.incoming, Framed.try_next, hi, hsend]
  · intro v rest hi hv
    cases v with
    | Ack => simp [ECIESStream.incoming, Framed.try_next, hi]
    | AuthReceive rid => exact absurd rfl (hv rid)
    | Message b => simp [ECIESStream.incoming, Framed.try_next, hi]
  · intro hi
    simp [ECIESStream.incoming, Framed.try_next, hi]
  · intro e rest hi
    simp [ECIESStream.incoming, Framed.try_next, hi]

/-- Witness for C2 (amended): a concrete transport whose first ingress
value is AuthReceive(7) makes incoming succeed with remote_id 7 and exactly
the Ack on the wire. -/
theorem c2_incoming_auth_classification_witness :
    ECIESStream.incoming (Except.ok ())
        ⟨[Except.ok (IngressECIESValue.AuthReceive 7)], [], [], [], [], []⟩
      = (Except.ok ⟨⟨[], [EgressECIESValue.Ack], [], [], [], []⟩, 7⟩,
         ⟨[], [EgressECIESValue.Ack], [], [], [], []⟩) :=
  (c2_incoming_auth_classification
      ⟨[Except.ok (IngressECIESValue.AuthReceive 7)], [], [], [], [], []⟩
      ⟨rfl, rfl, rfl⟩).1 7 [] rfl

/-- Claim C7 counterexample: a transport whose write path rejects the Auth
(outcome codec error 9) refutes the claim that, when client-codec
construction succeeds, connect performs exactly one write followed by
exactly one read: here nothing lands on the egress record and the pending
ingress item (an Ack that would have completed the handshake) is never
read; connect returns the write error. -/
theorem c7_counterexample :
    ¬(((ECIESStream.connect (Except.ok ())
          ⟨[Except.ok IngressECIESValue.Ack], [],
            [], [some (ECIESError.codecFault 9)], [], []⟩ 5).2).sent
         = [EgressECIESValue.Auth]
       ∧ ((ECIESStream.connect (Except.ok ())
             ⟨[Except.ok IngressECIESValue.Ack], [],
               [], [some (ECIESError.codecFault 9)], [], []⟩ 5).2).ingress = [])
    ∧ (ECIESStream.connect (Except.ok ())
         ⟨[Except.ok IngressECIESValue.Ack], [],
           [], [some (ECIESError.codecFault 9)], [], []⟩ 5).1
        = Except.error (ECIESError.codecFault 9) := by
  exact ⟨by decide, rfl⟩

/-- Claim C7 (amended): if client-codec construction fails, connect
returns an error with the transport untouched — nothing sent and nothing
read, before any egress value; otherwise, for every transport whose write
path accepts the Auth, connect writes exactly the single Auth egress value
and consumes exactly one pending ingress position (also when the awaited
item is itself an error, showing the write precedes the read), with no
internal retries; if the write path rejects the Auth, the write error is
returned and no read occurs. -/
theorem c7_connect_io_discipline (nc : Except ECIESError Unit)
    (transport : Framed) (rid : PeerId) :
    (∀ e, nc = Except.error e →
       ECIESStream.connect nc transport rid
         = (Except.error (ECIESError.ioError ⟨"Other", "invalid handshake"⟩),
            transport))
    ∧ (nc = Except.ok () → transport.acceptsWrites →
        ((ECIESStream.connect nc transport rid).2).sent
            = transport.sent ++ [EgressECIESValue.Auth]
        ∧ ((ECIESStream.connect nc transport rid).2).ingress
            = transport.ingress.tail) := by
  constructor
  · intro e he
    subst he
    rfl
  · intro hnc hW
    subst hnc
    have hsend := Framed.send_of_acceptsWrites transport EgressECIESValue.Auth hW
    rcases hi : transport.ingress with _ | ⟨item, rest⟩
    · simp [ECIESStream.connect, hsend, Framed.try_next, hi]
    · cases item with
      | error e => simp [ECIESStream.connect, hsend, Framed.try_next, hi]
      | ok v =>
        by_cases hv : some v = some IngressECIESValue.Ack <;>
          simp [ECIESStream.connect, hsend, Framed.try_next, hi, hv]

/-- Witness for C7 (amended): at a concrete always-accepting transport with
one pending Ack, connect records exactly the Auth and consumes the Ack; at
a failing codec construction the transport is returned untouched. -/
theorem c7_connect_io_discipline_witness :
    (ECIESStream.connect (Except.error (ECIESError.codecFault 1))
        ⟨[], [], [], [], [], []⟩ 5
      = (Except.error (ECIESError.ioError ⟨"Other", "invalid handshake"⟩),
         ⟨[], [], [], [], [], []⟩))
    ∧ (((ECIESStream.connect (Except.ok ())
          ⟨[Except.ok IngressECIESValue.Ack], [], [], [], [], []⟩ 5).2).sent
         = [EgressECIESValue.Auth]
       ∧ ((ECIESStream.connect (Except.ok ())
            ⟨[Except.ok IngressECIESValue.Ack], [], [], [], [], []⟩ 5).2).ingress
          = []) :=
  ⟨(c7_connect_io_discipline (Except.error (ECIESError.codecFault 1))
      ⟨[], [], [], [], [], []⟩ 5).1 (ECIESError.codecFault 1) rfl,
   (c7_connect_io_discipline (Except.ok ())
      ⟨[Except.ok IngressECIESValue.Ack], [], [], [], [], []⟩ 5).2 rfl
      ⟨rfl, rfl, rfl⟩⟩

/-- Claim C3 counterexample: when the underlying stream item is a decode
error (opaque codec error 7), the established-session poll does not
forward that error value unchanged: it yields the protocol io::Error whose
message interpolates the Debug rendering of the offending item. -/
theorem c3_counterexample :
    (ECIESStream.poll_next
        ⟨⟨[Except.error (ECIESError.codecFault 7)], [], [], [], [], []⟩, 9⟩).1
      ≠ some (Except.error (ECIESError.codecFault 7))
    ∧ (ECIESStream.poll_next
        ⟨⟨[Except.error (ECIESError.codecFault 7)], [], [], [], [], []⟩, 9⟩).1
      = some (Except.error (protocolError (Except.error (ECIESError.codecFault 7)))) :=
  ⟨by decide, rfl⟩

/-- Claim C3 (amended): when a poll of the ingress stream encounters an
underlying decode or transport error, the error is not forwarded
unchanged: the poll yields an io::Error of kind Other whose message embeds
the Debug rendering of the underlying error, the same protocol-error
wrapping the layer applies to any non-Message item. -/
theorem c3_underlying_error_wrapped (s : ECIESStream) (e : ECIESError)
    (rest : List (Except ECIESError IngressECIESValue))
    (h : s.stream.ingress = Except.error e :: rest) :
    (s.poll_next).1 = some (Except.error (protocolError (Except.error e)))
    ∧ protocolError (Except.error e)
        = ECIESError.ioError
            ⟨"Other",
              "ECIES stream protocol error: expected message, received "
                ++ ("Err(" ++ ECIESError.debugFmt e ++ ")")⟩ := by
  constructor
  · rw [poll_next_spec, h]
    rfl
  · rfl

/-- Witness for C3 (amended): concrete evaluation at a session whose next
ingress item is the opaque codec error 5. -/
theorem c3_underlying_error_wrapped_witness :
    (ECIESStream.poll_next
        ⟨⟨[Except.error (ECIESError.codecFault 5)], [], [], [], [], []⟩, 2⟩).1
      = some (Except.error (protocolError (Except.error (ECIESError.codecFault 5)))) :=
  (c3_underlying_error_wrapped
      ⟨⟨[Except.error (ECIESError.codecFault 5)], [], [], [], [], []⟩, 2⟩
      (ECIESError.codecFault 5) [] rfl).1

/-- Claim C4: each poll of the established ingress stream yields exactly
one of the next Message payload, clean end-of-sequence (precisely when the
underlying stream has ended), or an error; and for every decoded ingress
value other than Message the poll yields an error whose description names
the unexpected value (its Debug rendering occurs in the message). -/
theorem c4_poll_classification (s : ECIESStream) :
    ((s.poll_next).1 = none ↔ s.stream.ingress = [])
    ∧ (∀ b rest,
         s.stream.ingress = Except.ok (IngressECIESValue.Message b) :: rest →
         (s.poll_next).1 = some (Except.ok b))
    ∧ (∀ v rest, s.stream.ingress = Except.ok v :: rest →
         (∀ b, v ≠ IngressECIESValue.Message b) →
         (s.poll_next).1 = some (Except.error (ECIESError.ioError
             ⟨"Other",
               "ECIES stream protocol error: expected message, received "
                 ++ ("Ok(" ++ v.debugFmt ++ ")")⟩))
         ∧ ∃ pre post : List Char,
             pre ++ (v.debugFmt).data ++ post
               = (("ECIES stream protocol error: expected message, received "
                   ++ ("Ok(" ++ v.debugFmt ++ ")")).data)) := by
  refine ⟨⟨?_, ?_⟩, ?_, ?_⟩
  · intro h
    rcases hi : s.stream.ingress with _ | ⟨item, rest⟩
    · rfl
    · rw [poll_next_spec, hi] at h
      simp at h
  · intro h
    rw [poll_next_spec, h]
  · intro b rest hi
    rw [poll_next_spec, hi]
    rfl
  · intro v rest hi hv
    constructor
    · rw [poll_next_spec, hi]
      cases v with
      | Ack => rfl
      | AuthReceive rid => rfl
      | Message b => exact absurd rfl (hv b)
    · refine ⟨("ECIES stream protocol error: expected message, received Ok(").data,
        (")").data, ?_⟩
      simp [String.data_append]

/-- Witness for C4: concrete evaluations — a Message payload is yielded as
is, the empty stream reports clean end, and a non-Message value (Ack)
yields the naming protocol error. -/
theorem c4_poll_classification_witness :
    (ECIESStream.poll_next ⟨⟨[], [], [], [], [], []⟩, 3⟩).1 = none
    ∧ (ECIESStream.poll_next
        ⟨⟨[Except.ok (IngressECIESValue.Message [104, 105])], [], [], [], [], []⟩, 3⟩).1
        = some (Except.ok [104, 105])
    ∧ (ECIESStream.poll_next
        ⟨⟨[Except.ok IngressECIESValue.Ack], [], [], [], [], []⟩, 3⟩).1
        = some (Except.error (ECIESError.ioError
            ⟨"Other",
              "ECIES stream protocol error: expected message, received "
                ++ ("Ok(" ++ IngressECIESValue.Ack.debugFmt ++ ")")⟩)) :=
  ⟨(c4_poll_classification ⟨⟨[], [], [], [], [], []⟩, 3⟩).1.2 rfl,
   (c4_poll_classification
      ⟨⟨[Except.ok (IngressECIESValue.Message [104, 105])], [], [], [], [], []⟩, 3⟩).2.1
      [104, 105] [] rfl,
   ((c4_poll_classification
      ⟨⟨[Except.ok IngressECIESValue.Ack], [], [], [], [], []⟩, 3⟩).2.2
      IngressECIESValue.Ack [] rfl (by intro b h; cases h)).1⟩

theorem Framed.poll_ready_sent (f : Framed) : ((f.poll_ready).2).sent = f.sent := by
  rcases f with ⟨ing, snt, ro, so, fo, co⟩
  cases ro <;> rfl

theorem Framed.poll_flush_sent (f : Framed) : ((f.poll_flush).2).sent = f.sent := by
  rcases f with ⟨ing, snt, ro, so, fo, co⟩
  cases fo <;> rfl

theorem Framed.poll_close_sent (f : Framed) : ((f.poll_close).2).sent = f.sent := by
  rcases f with ⟨ing, snt, ro, so, fo, co⟩
  cases co <;> rfl

theorem Framed.start_send_sent (f : Framed) (v : EgressECIESValue) :
    ((f.start_send v).2).sent = f.sent ∨ ((f.start_send v).2).sent = f.sent ++ [v] := by
  rcases f with ⟨ing, snt, ro, so, fo, co⟩
  match so with
  | [] => exact Or.inr rfl
  | none :: rest => exact Or.inr rfl
  | some e :: rest => exact Or.inl rfl

theorem ECIESStream.sinkStep_sent (s : ECIESStream) (op : SinkOp) :
    ∃ ms : List Bytes,
      ((s.sinkStep op).2).stream.sent = s.stream.sent ++ ms.map EgressECIESValue.Message := by
  cases op with
  | ready =>
    exact ⟨[], by simp [ECIESStream.sinkStep, ECIESStream.poll_ready, Framed.poll_ready_sent]⟩
  | sendItem b =>
    rcases Framed.start_send_sent s.stream (EgressECIESValue.Message b) with h | h
    · exact ⟨[], by simp [ECIESStream.sinkStep, ECIESStream.start_send, h]⟩
    · exact ⟨[b], by simp [ECIESStream.sinkStep, ECIESStream.start_send, h]⟩
  | flush =>
    exact ⟨[], by simp [ECIESStream.sinkStep, ECIESStream.poll_flush, Framed.poll_flush_sent]⟩
  | close =>
    exact ⟨[], by simp [ECIESStream.sinkStep, ECIESStream.poll_close, Framed.poll_close_sent]⟩

theorem ECIESStream.runSink_sent_messages (ops : List SinkOp) :
    ∀ s : ECIESStream, ∃ ms : List Bytes,
      ((s.runSink ops).2).stream.sent = s.stream.sent ++ ms.map EgressECIESValue.Message := by
  induction ops with
  | nil => intro s; exact ⟨[], by simp [ECIESStream.runSink]⟩
  | cons op ops ih =>
    intro s
    obtain ⟨ms1, h1⟩ := s.sinkStep_sent op
    obtain ⟨ms2, h2⟩ := ih ((s.sinkStep op).2)
    refine ⟨ms1 ++ ms2, ?_⟩
    show (((s.sinkStep op).2).runSink ops).2.stream.sent = _
    rw [h2, h1]
    simp

/-- Claim C5: an established session never hands the adapter an Auth or Ack
egress value: any sequence of sink operations extends the egress record by
Message values only, and each item the sink accepts lands as exactly the
Message wrapping of that item. -/
theorem c5_post_handshake_only_messages (s : ECIESStream) (ops : List SinkOp)
    (b : Bytes) :
    (∃ ms : List Bytes,
       ((s.runSink ops).2).stream.sent = s.stream.sent ++ ms.map EgressECIESValue.Message)
    ∧ ((s.start_send b).1 = none →
        ((s.start_send b).2).stream.sent
          = s.stream.sent ++ [EgressECIESValue.Message b]) := by
  refine ⟨ECIESStream.runSink_sent_messages ops s, ?_⟩
  intro h
  rcases s with ⟨⟨ing, snt, ro, so, fo, co⟩, rid⟩
  match so with
  | [] => rfl
  | none :: rest => rfl
  | some e :: rest => exact absurd h (by simp [ECIESStream.start_send, Framed.start_send])

/-- Witness for C5: on a fresh post-handshake session, sending payloads
then flushing appends exactly the two Message frames. -/
theorem c5_post_handshake_only_messages_witness :
    ((((⟨⟨[], [EgressECIESValue.Auth], [], [], [], []⟩, 5⟩ : ECIESStream).runSink
        [SinkOp.ready, SinkOp.sendItem [1, 2], SinkOp.flush]).2).stream.sent
      = [EgressECIESValue.Auth] ++ [[1, 2]].map EgressECIESValue.Message)
    ∧ (((⟨⟨[], [EgressECIESValue.Auth], [], [], [], []⟩, 5⟩ : ECIESStream).start_send
          [1, 2]).2).stream.sent
        = [EgressECIESValue.Auth] ++ [EgressECIESValue.Message [1, 2]] :=
  ⟨rfl,
   (c5_post_handshake_only_messages
      ⟨⟨[], [EgressECIESValue.Auth], [], [], [], []⟩, 5⟩ [] [1, 2]).2 rfl⟩

theorem ECIESStream.sinkStep_delegates (s : ECIESStream) (op : SinkOp) :
    s.sinkStep op
      = ((s.stream.sinkStep (SinkOp.wrap op)).1,
         ⟨(s.stream.sinkStep (SinkOp.wrap op)).2, s.remote_id⟩) := by
  cases op <;> rfl

theorem ECIESStream.runSink_delegates (ops : List SinkOp) :
    ∀ s : ECIESStream,
      s.runSink ops
        = ((s.stream.runSink (ops.map SinkOp.wrap)).1,
           ⟨(s.stream.runSink (ops.map SinkOp.wrap)).2, s.remote_id⟩) := by
  induction ops with
  | nil => intro s; rfl
  | cons op ops ih =>
    intro s
    show ((s.sinkStep op).1 :: (((s.sinkStep op).2).runSink ops).1,
          (((s.sinkStep op).2).runSink ops).2) = _
    rw [ECIESStream.sinkStep_delegates, ih]
    rfl

/-- Claim C6: the established sink is exactly the adapter's sink modulo
Message wrapping — poll_ready, poll_flush and poll_close return precisely
the adapter's result, start_send(item) returns precisely the adapter's
start_send on Message(item), and any sequence of sink operations produces
result-for-result the adapter's results on the wrapped operations with the
identical final adapter state: no buffering, transformation or reordering
is introduced at this layer. -/
theorem c6_sink_is_adapter_modulo_message (s : ECIESStream) (ops : List SinkOp)
    (b : Bytes) :
    s.runSink ops
      = ((s.stream.runSink (ops.map SinkOp.wrap)).1,
         ⟨(s.stream.runSink (ops.map SinkOp.wrap)).2, s.remote_id⟩)
    ∧ (s.poll_ready).1 = (s.stream.poll_ready).1
    ∧ (s.start_send b).1 = (s.stream.start_send (EgressECIESValue.Message b)).1
    ∧ (s.poll_flush).1 = (s.stream.poll_flush).1
    ∧ (s.poll_close).1 = (s.stream.poll_close).1 :=
  ⟨ECIESStream.runSink_delegates ops s, rfl, rfl, rfl, rfl⟩

theorem ECIESStream.stepOp_remote_id (s : ECIESStream) (op : SessionOp) :
    (s.stepOp op).remote_id = s.remote_id := by
  cases op <;> rfl

theorem ECIESStream.runOps_remote_id (ops : List SessionOp) :
    ∀ s : ECIESStream, (s.runOps ops).remote_id = s.remote_id := by
  induction ops with
  | nil => intro s; rfl
  | cons op ops ih =>
    intro s
    show ((s.stepOp op).runOps ops).remote_id = s.remote_id
    rw [ih (s.stepOp op), ECIESStream.stepOp_remote_id]

/-- Claim C8: remote_id is fixed exactly once at handshake completion — a
session produced by connect carries the caller-supplied id, a session
produced by incoming carries exactly the peer id received in the
AuthReceive ingress value — and no sequence of stream or sink operations
ever changes it. -/
theorem c8_remote_id_fixed_once :
    (∀ (nc : Except ECIESError Unit) (transport : Framed) (rid : PeerId)
        (str : ECIESStream) (fin : Framed),
       ECIESStream.connect nc transport rid = (Except.ok str, fin) →
       str.remote_id = rid)
    ∧ (∀ (ns : Except ECIESError Unit) (transport : Framed)
          (str : ECIESStream) (fin : Framed),
         ECIESStream.incoming ns transport = (Except.ok str, fin) →
         ∃ rest, transport.ingress
           = Except.ok (IngressECIESValue.AuthReceive str.remote_id) :: rest)
    ∧ (∀ (s : ECIESStream) (ops : List SessionOp),
         (s.runOps ops).remote_id = s.remote_id) := by
  refine ⟨?_, ?_, ?_⟩
  · intro nc transport rid str fin h
    cases nc with
    | error e => exact absurd h (by simp [ECIESStream.connect])
    | ok u =>
      rcases hs : transport.send EgressECIESValue.Auth with ⟨r, t1⟩
      cases r with
      | some e => exact absurd h (by simp [ECIESStream.connect, hs])
      | none =>
        rcases ht : t1.try_next with ⟨rr, t2⟩
        cases rr with
        | error e => exact absurd h (by simp [ECIESStream.connect, hs, ht])
        | ok msg =>
          by_cases hmsg : msg = some IngressECIESValue.Ack
          · have h' : ((Except.ok (ECIESStream.mk t2 rid)
                  : Except ECIESError ECIESStream), t2) = (Except.ok str, fin) := by
              simpa [ECIESStream.connect, hs, ht, hmsg] using h
            have hfst := congrArg Prod.fst h'
            injection hfst with hstr
            rw [← hstr]
          · exact absurd h (by simp [ECIESStream.connect, hs, ht, hmsg])
  · intro ns transport str fin h
    cases ns with
    | error e => exact absurd h (by simp [ECIESStream.incoming])
    | ok u =>
      rcases transport with ⟨ing, snt, ro, so, fo, co⟩
      cases ing with
      | nil => exact absurd h (by simp [ECIESStream.incoming, Framed.try_next])
      | cons item rest =>
        cases item with
        | error e => exact absurd h (by simp [ECIESStream.incoming, Framed.try_next])
        | ok v =>
          cases v with
          | Ack => exact absurd h (by simp [ECIESStream.incoming, Framed.try_next])
          | Message b =>
            exact absurd h (by simp [ECIESStream.incoming, Framed.try_next])
          | AuthReceive rid =>
            rcases hsend : Framed.send ⟨rest, snt, ro, so, fo, co⟩ EgressECIESValue.Ack
              with ⟨r, t2⟩
            cases r with
            | some e =>
              exact absurd h
                (by simp [ECIESStream.incoming, Framed.try_next, hsend])
            | none =>
              have h' : ((Except.ok (ECIESStream.mk t2 rid)
                    : Except ECIESError ECIESStream), t2) = (Except.ok str, fin) := by
                simpa [ECIESStream.incoming, Framed.try_next, hsend] using h
              have hfst := congrArg Prod.fst h'
              injection hfst with hstr
              rw [← hstr]
              exact ⟨rest, rfl⟩
  · intro s ops
    exact ECIESStream.runOps_remote_id ops s

/-- Witness for C8: the session built by a concrete successful connect
reports the caller-supplied id 5; the session built by a concrete
successful incoming reports the received id 7; and a concrete run of
stream and sink operations leaves a session's remote_id at 5. -/
theorem c8_remote_id_fixed_once_witness :
    ((⟨⟨[], [EgressECIESValue.Auth], [], [], [], []⟩, 5⟩ : ECIESStream).remote_id = 5)
    ∧ (∃ rest,
        ([Except.ok (IngressECIESValue.AuthReceive 7)]
            : List (Except ECIESError IngressECIESValue))
          = Except.ok (IngressECIESValue.AuthReceive
              ((⟨⟨[], [EgressECIESValue.Ack], [], [], [], []⟩, 7⟩ : ECIESStream).remote_id))
            :: rest)
    ∧ (((⟨⟨[Except.ok IngressECIESValue.Ack], [], [], [], [], []⟩, 5⟩ : ECIESStream).runOps
          [SessionOp.ready, SessionOp.sendItem [1], SessionOp.next, SessionOp.flush,
           SessionOp.close]).remote_id
        = (⟨⟨[Except.ok IngressECIESValue.Ack], [], [], [], [], []⟩, 5⟩
            : ECIESStream).remote_id) :=
  ⟨c8_remote_id_fixed_once.1 (Except.ok ())
      ⟨[Except.ok IngressECIESValue.Ack], [], [], [], [], []⟩ 5
      ⟨⟨[], [EgressECIESValue.Auth], [], [], [], []⟩, 5⟩
      ⟨[], [EgressECIESValue.Auth], [], [], [], []⟩ rfl ▸ rfl,
   c8_remote_id_fixed_once.2.1 (Except.ok ())
      ⟨[Except.ok (IngressECIESValue.AuthReceive 7)], [], [], [], [], []⟩
      ⟨⟨[], [EgressECIESValue.Ack], [], [], [], []⟩, 7⟩
      ⟨[], [EgressECIESValue.Ack], [], [], [], []⟩ rfl,
   c8_remote_id_fixed_once.2.2
      ⟨⟨[Except.ok IngressECIESValue.Ack], [], [], [], [], []⟩, 5⟩
      [SessionOp.ready, SessionOp.sendItem [1], SessionOp.next, SessionOp.flush,
       SessionOp.close]⟩

theorem Framed.start_send_of_no_outcomes (f : Framed) (v : EgressECIESValue)
    (h : f.sendOutcomes = []) :
    f.start_send v = (none, { f with sent := f.sent ++ [v] }) := by
  rcases f with ⟨ing, snt, ro, so, fo, co⟩
  simp only at h
  subst h
  rfl

theorem ECIESStream.sendAll_sent (ms : List Bytes) :
    ∀ s : ECIESStream, s.stream.sendOutcomes = [] →
      (s.sendAll ms).stream.sent = s.stream.sent ++ ms.map EgressECIESValue.Message := by
  induction ms with
  | nil => intro s h; simp [ECIESStream.sendAll]
  | cons b bs ih =>
    intro s h
    have hss := Framed.start_send_of_no_outcomes s.stream (EgressECIESValue.Message b) h
    have h2 : (s.start_send b).2
        = ⟨{ s.stream with sent := s.stream.sent ++ [EgressECIESValue.Message b] }, s.remote_id⟩ := by
      simp [ECIESStream.start_send, hss]
    show (((s.start_send b).2).sendAll bs).stream.sent = _
    rw [h2]
    rw [ih ⟨{ s.stream with sent := s.stream.sent ++ [EgressECIESValue.Message b] }, s.remote_id⟩ (by simpa using h)]
    simp

theorem drainFuel_map (l : List (Except ECIESError IngressECIESValue)) :
    ∀ s : ECIESStream, s.stream.ingress = l →
      drainFuel l.length s = l.map classifyIngress := by
  induction l with
  | nil => intro s h; rfl
  | cons item rest ih =>
    intro s h
    have hp : s.poll_next
        = (some (classifyIngress item),
           ⟨{ s.stream with ingress := rest }, s.remote_id⟩) := by
      rw [poll_next_spec, h]
    show drainFuel (rest.length + 1) s = _
    rw [drainFuel, hp]
    show classifyIngress item :: drainFuel rest.length ⟨{ s.stream with ingress := rest }, s.remote_id⟩ = List.map classifyIngress (item :: rest)
    rw [ih ⟨{ s.stream with ingress := rest }, s.remote_id⟩ rfl]
    rfl

theorem ECIESStream.drain_eq (s : ECIESStream) :
    s.drain = s.stream.ingress.map classifyIngress :=
  drainFuel_map s.stream.ingress s rfl

/-- Claim C9: payloads accepted in order by one session's sink and
delivered (via the codec's byte-exact wire contract) to the peer session's
ingress stream are observed in the same order and byte-for-byte equal:
the Message wrap of start_send and the unwrap of poll_next compose to the
identity on payload sequences, in FIFO order. -/
theorem c9_fifo_byte_exact_roundtrip (sid : PeerId) (ms : List Bytes)
    (sender receiver : ECIESStream)
    (hs : sender.stream.sendOutcomes = [])
    (hr : receiver.stream.ingress
        = (((sender.sendAll ms).stream.sent).drop sender.stream.sent.length).map
            (fun v => Except.ok (wireTransfer sid v))) :
    receiver.drain = ms.map Except.ok := by
  rw [ECIESStream.drain_eq, hr, ECIESStream.sendAll_sent ms sender hs, List.drop_left]
  simp [List.map_map, Function.comp, wireTransfer, classifyIngress]

/-- Witness for C9: the two payloads 'hi' and '!' sent in order by a fresh
sender are observed by the peer in order and byte-for-byte equal. -/
theorem c9_fifo_byte_exact_roundtrip_witness :
    ECIESStream.drain
        ⟨⟨[Except.ok (IngressECIESValue.Message [104, 105]),
           Except.ok (IngressECIESValue.Message [33])], [], [], [], [], []⟩, 2⟩
      = [[104, 105], [33]].map Except.ok :=
  c9_fifo_byte_exact_roundtrip 1 [[104, 105], [33]]
    ⟨⟨[], [], [], [], [], []⟩, 1⟩
    ⟨⟨[Except.ok (IngressECIESValue.Message [104, 105]),
       Except.ok (IngressECIESValue.Message [33])], [], [], [], [], []⟩, 2⟩
    rfl rfl
